import Mathlib

/-!
# Booper: shared game state and connection hub

A shallow embedding of `game.go` (the game state with its boop ledger and
counters) and of `hub.go` (the control loop of the connection hub), followed
by the properties of the specification that concern them.

Go maps are finite maps with distinct keys (`GoMap`).  Go's `int` is the 64-bit
signed integer of the usual builds: a counter is an `Int` and every addition on it
is followed by the wrap-around `wrapInt` into the range `-2^63 .. 2^63 - 1`.
-/

/-! ## Go maps -/

/-- A Go `map[K]V`: finitely many entries with pairwise distinct keys.  The order
of `entries` carries no meaning (Go iterates maps in an unspecified order). -/
structure GoMap (K : Type) (V : Type) where
  entries : List (K × V)
  nodup : (entries.map Prod.fst).Nodup
deriving DecidableEq

namespace GoMap

variable {K V W : Type} [DecidableEq K]

/-- The result of `make(map[K]V)`. -/
def empty : GoMap K V := ⟨[], List.nodup_nil⟩

/-- Lookup in a list of entries: the value of the first entry with key `k`. -/
def lookupList : List (K × V) → K → Option V
  | [], _ => none
  | e :: rest, k => if e.1 = k then some e.2 else lookupList rest k

/-- The comma-ok lookup `v, ok := m[k]`. -/
def get? (m : GoMap K V) (k : K) : Option V := lookupList m.entries k

/-- The plain lookup `m[k]`, which yields the zero value `d` of `V` for a missing key. -/
def getD (m : GoMap K V) (k : K) (d : V) : V := (m.get? k).getD d

/-- Whether `k` is a key of `m`. -/
def contains (m : GoMap K V) (k : K) : Bool := (m.get? k).isSome

/-- The keys of `m`, as visited by `for k := range m`. -/
def keys (m : GoMap K V) : List K := m.entries.map Prod.fst

/-- The builtin `len(m)`. -/
def len (m : GoMap K V) : Nat := m.entries.length

/-- The builtin `delete(m, k)`. -/
def delete (m : GoMap K V) (k : K) : GoMap K V :=
  ⟨m.entries.filter (fun e => !decide (e.1 = k)),
   m.nodup.sublist ((List.filter_sublist m.entries).map Prod.fst)⟩

/-- The assignment `m[k] = v`. -/
def set (m : GoMap K V) (k : K) (v : V) : GoMap K V :=
  ⟨(k, v) :: (m.delete k).entries, by
    have h := (m.delete k).nodup
    simp only [List.map_cons, List.nodup_cons]
    refine ⟨?_, h⟩
    simp [delete, List.mem_map, List.mem_filter]⟩

/-- Apply `f` to every value in place, as a `range` loop that mutates each value does. -/
def mapVals (f : V → W) (m : GoMap K V) : GoMap K W :=
  ⟨m.entries.map (fun e => (e.1, f e.2)), by
    have h := m.nodup
    simpa [List.map_map, Function.comp_def] using h⟩

/-- Build a fresh map by `out[k] = f v` for each `k, v := range m`. -/
def copyWith (f : V → W) (m : GoMap K V) : GoMap K W :=
  m.entries.foldl (fun out e => out.set e.1 (f e.2)) empty

end GoMap

/-! ## game.go and player.go -/

/-- The struct `Player` of player.go. -/
structure Player where
  ID : String
  Name : String
deriving DecidableEq

/-- The struct `GameState` of game.go, without its mutex: every operation below is
one critical section.  A stored inner map of `BoopLog` is always one made by
`make`, so `BoopLog[k] != nil` is the presence of the key `k`. -/
structure GameState where
  Players : GoMap String Player
  BoopLog : GoMap String (GoMap String Bool)
  BoopsMade : GoMap String Int
  BoopsReceived : GoMap String Int
deriving DecidableEq

/-- The largest value of Go's `int` on a 64-bit build, `2^63 - 1`. -/
def maxInt : Int := 2 ^ 63 - 1

/-- The smallest value of Go's `int` on a 64-bit build, `-2^63`. -/
def minInt : Int := -(2 ^ 63)

/-- The value Go's 64-bit `int` holds for the mathematical integer `x`: two's complement
wrap-around, so `wrapInt (maxInt + 1) = minInt`. -/
def wrapInt (x : Int) : Int := (x + 2 ^ 63) % 2 ^ 64 - 2 ^ 63

/-- The state of the game built by `NewGame`. -/
def NewGame : GameState :=
  { Players := GoMap.empty, BoopLog := GoMap.empty,
    BoopsMade := GoMap.empty, BoopsReceived := GoMap.empty }

namespace Game

/-- The entry of a ledger for the pair `s -> t`: the flag stored at `log[s][t]`, or
`none` when `log[s]` is nil or has no key `t`. -/
def ledgerGet (log : GoMap String (GoMap String Bool)) (s t : String) : Option Bool :=
  match log.get? s with
  | some inner => inner.get? t
  | none => none

/-- The ledger test of `RecordBoop`, `g.State.BoopLog[s] != nil && g.State.BoopLog[s][t]`:
the pair `s -> t` is in the ledger. -/
def hasBoop (g : GameState) (s t : String) : Bool :=
  match g.BoopLog.get? s with
  | some inner => inner.getD t false
  | none => false

/-- Whether the ledger has any entry under `s -> t`, whatever flag it stores. -/
def pairStored (g : GameState) (s t : String) : Bool := (ledgerGet g.BoopLog s t).isSome

/-- `func (g *Game) AddPlayer(p *Player)`. -/
def AddPlayer (g : GameState) (p : Player) : GameState :=
  { g with Players := g.Players.set p.ID p }

/-- `func (g *Game) RemovePlayer(id string)`. -/
def RemovePlayer (g : GameState) (id : String) : GameState :=
  { Players := g.Players.delete id
    BoopLog := (g.BoopLog.delete id).mapVals (fun inner => inner.delete id)
    BoopsMade := g.BoopsMade.delete id
    BoopsReceived := g.BoopsReceived.delete id }

/-- Lines 66-71 of `RecordBoop`: remove the opposite direction if present. -/
def removeOpposite (log : GoMap String (GoMap String Bool)) (booperID boopedID : String) :
    GoMap String (GoMap String Bool) :=
  match log.get? boopedID with
  | some inner =>
    let inner1 := inner.delete booperID
    let log1 := log.set boopedID inner1
    if inner1.len = 0 then log1.delete boopedID else log1
  | none => log

/-- Lines 72-75 of `RecordBoop`: make the inner map if needed and store the pair. -/
def storeBoop (log : GoMap String (GoMap String Bool)) (booperID boopedID : String) :
    GoMap String (GoMap String Bool) :=
  let log1 := match log.get? booperID with
    | none => log.set booperID GoMap.empty
    | some _ => log
  log1.set booperID ((log1.getD booperID GoMap.empty).set boopedID true)

/-- `func (g *Game) RecordBoop(booperID, boopedID string) bool`: the state after the
call and the returned flag. -/
def RecordBoop (g : GameState) (booperID boopedID : String) : GameState × Bool :=
  if hasBoop g booperID boopedID then (g, false)
  else
    ({ Players := g.Players
       BoopLog := storeBoop (removeOpposite g.BoopLog booperID boopedID) booperID boopedID
       BoopsMade := g.BoopsMade.set booperID (wrapInt (g.BoopsMade.getD booperID 0 + 1))
       BoopsReceived :=
         g.BoopsReceived.set boopedID (wrapInt (g.BoopsReceived.getD boopedID 0 + 1)) },
     true)

/-- The four entries of the `map[string]any` returned by `Snapshot`. -/
structure SnapshotData where
  players : GoMap String Player
  boopLog : GoMap String (GoMap String Bool)
  boopsMade : GoMap String Int
  boopsReceived : GoMap String Int

/-- `func (g *Game) Snapshot() map[string]any`: four fresh maps filled by `range` loops. -/
def Snapshot (g : GameState) : SnapshotData :=
  { players := g.Players.copyWith (fun p => { ID := p.ID, Name := p.Name })
    boopLog := g.BoopLog.copyWith (fun inner => inner.copyWith (fun v => v))
    boopsMade := g.BoopsMade.copyWith (fun c => c)
    boopsReceived := g.BoopsReceived.copyWith (fun c => c) }

/-- One call on the game state from outside: the three mutating operations. -/
inductive Op where
  | addPlayer (p : Player)
  | removePlayer (id : String)
  | recordBoop (booperID boopedID : String)

/-- The state after one operation. -/
def Op.apply (g : GameState) : Op → GameState
  | .addPlayer p => AddPlayer g p
  | .removePlayer id => RemovePlayer g id
  | .recordBoop s t => (RecordBoop g s t).1

/-- The states reachable from `NewGame` through finitely many operations. -/
inductive Reachable : GameState → Prop where
  | init : Reachable NewGame
  | step (g : GameState) (op : Op) : Reachable g → Reachable (op.apply g)

end Game

/-! ## client.go and hub.go -/

/-- The bytes of one serialized message (`[]byte`). -/
abbrev Msg := String

/-- A buffered Go channel `chan []byte`: the queued messages, oldest first, the
capacity given to `make`, and whether `close` has been called on it. -/
structure Chan where
  buf : List Msg
  cap : Nat
  closed : Bool
deriving DecidableEq

namespace Chan

/-- The channel with `m` appended to its buffer. -/
def push (ch : Chan) (m : Msg) : Chan := { ch with buf := ch.buf ++ [m] }

/-- The channel marked closed; the messages already queued stay receivable. -/
def shut (ch : Chan) : Chan := { ch with closed := true }

/-- The statement `select { case ch <- m: default: }`.  `none` is the run-time panic
of a send on a closed channel; otherwise the channel afterwards and whether the send
case was taken.  On a buffered channel the send case is taken exactly when the buffer
has room (a receiver can only be waiting on an empty buffer). -/
def trySend (ch : Chan) (m : Msg) : Option (Chan × Bool) :=
  if ch.closed then none
  else if ch.buf.length < ch.cap then some (ch.push m, true)
  else some (ch, false)

/-- The builtin `close(ch)`; `none` is the run-time panic of closing a closed channel. -/
def close (ch : Chan) : Option Chan :=
  if ch.closed then none else some ch.shut

/-- A receive `<-ch` by the consumer when a message is queued. -/
def recv (ch : Chan) : Chan := { ch with buf := ch.buf.tail }

end Chan

/-- The fields of the struct `Client` that the hub reads. -/
structure Client where
  playerID : String
  send : Chan
deriving DecidableEq

/-- The client with its channel in a new state. -/
def Client.withSend (cl : Client) (ch : Chan) : Client := { cl with send := ch }

/-- The struct `Hub` together with what it points to: `clients` is the membership map
`map[*Client]bool` keyed by pointer, `heap` gives the `Client` object behind each
pointer, `game` is the shared game state.  The three channels of the hub are the
events of `Hub.step`. -/
structure HubState where
  clients : GoMap Nat Bool
  heap : Nat → Client
  game : GameState

/-- `func NewHub(game *Game) *Hub`: no members. -/
def NewHub (game : GameState) (heap : Nat → Client) : HubState :=
  { clients := GoMap.empty, heap := heap, game := game }

namespace Hub

/-- What the control loop receives in one iteration of its `select`. -/
inductive Event where
  | register (client : Nat)
  | unregister (client : Nat)
  | broadcast (message : Msg)

/-- Store a new channel state for the client behind pointer `c`. -/
def setSend (h : HubState) (c : Nat) (ch : Chan) : HubState :=
  { h with heap := Function.update h.heap c ((h.heap c).withSend ch) }

/-- The body of both fan-out loops:
`select { case c.send <- msg: default: close(c.send); delete(h.clients, c) }`. -/
def sendOrDrop (msg : Msg) (h : HubState) (c : Nat) : Option HubState :=
  match (h.heap c).send.trySend msg with
  | none => none
  | some (ch, true) => some (setSend h c ch)
  | some (_, false) =>
    match (h.heap c).send.close with
    | none => none
    | some ch => some { setSend h c ch with clients := h.clients.delete c }

/-- The loop `for c := range h.clients { ... }` around `sendOrDrop`; a panic in one
iteration ends the loop. -/
def fanOut (msg : Msg) (h : HubState) : Option HubState :=
  h.clients.keys.foldl (fun acc c => acc.bind (fun h1 => sendOrDrop msg h1 c)) (some h)

/-- One iteration of `func (h *Hub) Run()`.  `leftMsg id` is the result of
`json.Marshal` on the `player_left` envelope for `id` (`none` when it reports an
error).  `none` is a run-time panic of the control loop. -/
def step (leftMsg : String → Option Msg) (h : HubState) : Event → Option HubState
  | .register client => some { h with clients := h.clients.set client true }
  | .unregister client =>
    if h.clients.contains client then
      let h1 : HubState := { h with clients := h.clients.delete client }
      match (h1.heap client).send.close with
      | none => none
      | some ch =>
        let h2 := setSend h1 client ch
        if (h2.heap client).playerID ≠ "" then
          let h3 : HubState := { h2 with game := Game.RemovePlayer h2.game (h2.heap client).playerID }
          match leftMsg (h3.heap client).playerID with
          | some msg => fanOut msg h3
          | none => some h3
        else some h2
    else some h
  | .broadcast message => fanOut message h

/-- Every member's outbound queue is open. -/
def MembersOpen (h : HubState) : Prop :=
  ∀ c, h.clients.contains c = true → (h.heap c).send.closed = false

/-- Run the control loop over a list of events, stopping at a panic. -/
def run (leftMsg : String → Option Msg) (h : HubState) (evs : List Event) : Option HubState :=
  evs.foldl (fun acc e => acc.bind (fun h1 => step leftMsg h1 e)) (some h)

/-- The hub states that arise in a run of the server.  The hub starts with no members
and every session's queue open; the control loop processes events without a panic; a
session is registered only while its queue is open (as is every session registered for
the first time); between two events other goroutines call `AddPlayer` and `RecordBoop`
on the game and a session's writer takes a message off its queue. -/
inductive Reachable (leftMsg : String → Option Msg) : HubState → Prop where
  | init (game : GameState) (heap : Nat → Client) :
      (∀ c, (heap c).send.closed = false) → Reachable leftMsg (NewHub game heap)
  | register (h : HubState) (c : Nat) (h1 : HubState) :
      Reachable leftMsg h → (h.heap c).send.closed = false →
      step leftMsg h (.register c) = some h1 → Reachable leftMsg h1
  | unregister (h : HubState) (c : Nat) (h1 : HubState) :
      Reachable leftMsg h → step leftMsg h (.unregister c) = some h1 → Reachable leftMsg h1
  | broadcast (h : HubState) (m : Msg) (h1 : HubState) :
      Reachable leftMsg h → step leftMsg h (.broadcast m) = some h1 → Reachable leftMsg h1
  | addPlayer (h : HubState) (p : Player) :
      Reachable leftMsg h → Reachable leftMsg { h with game := Game.AddPlayer h.game p }
  | recordBoop (h : HubState) (s t : String) :
      Reachable leftMsg h → Reachable leftMsg { h with game := (Game.RecordBoop h.game s t).1 }
  | recv (h : HubState) (c : Nat) :
      Reachable leftMsg h → Reachable leftMsg (setSend h c (h.heap c).send.recv)

/-- The state after the control loop has processed `evs` (the state `h` itself if the
loop panics on the way). -/
def after (leftMsg : String → Option Msg) (h : HubState) (evs : List Event) : HubState :=
  (run leftMsg h evs).getD h

end Hub

/-- Sessions as `HandleWebSocket` creates them, with an empty open queue of capacity
`cap` (512 in handlers.go): pointer 1 is the session of player `"p1"`, pointer 2 that of
player `"p2"`; the other pointers stand for sessions without a player. -/
def newSessions (cap : Nat) : Nat → Client := fun c =>
  { playerID := if c = 1 then "p1" else if c = 2 then "p2" else ""
    send := { buf := [], cap := cap, closed := false } }

/-- The hub of `main` once `HandleWebSocket` has added the player `"p1"` to the game,
before its session is registered. -/
def hubWithPlayer (cap : Nat) : HubState :=
  { NewHub NewGame (newSessions cap) with
    game := Game.AddPlayer NewGame { ID := "p1", Name := "Silly Kiwi" } }

/-! ## Facts about Go maps -/

namespace GoMap

variable {K V W : Type} [DecidableEq K]

omit [DecidableEq K] in
theorem ext_entries {m m' : GoMap K V} (h : m.entries = m'.entries) : m = m' := by
  cases m; cases m'; simp_all

theorem lookupList_filter (l : List (K × V)) (k k' : K) :
    lookupList (l.filter (fun e => !decide (e.1 = k))) k' =
      if k' = k then none else lookupList l k' := by
  induction l with
  | nil => simp [lookupList]
  | cons e rest ih =>
    rw [List.filter_cons]
    by_cases hk : e.1 = k
    · simp only [hk, decide_True, Bool.not_true, Bool.false_eq_true, if_false, ih]
      by_cases hk' : k' = k
      · simp [hk']
      · have h2 : ¬ k = k' := fun h => hk' h.symm
        simp [lookupList, hk, hk', h2]
    · simp only [hk, decide_False, Bool.not_false, if_true]
      simp only [lookupList, ih]
      by_cases hk' : k' = k
      · subst hk'
        simp [hk]
      · simp [hk']

theorem lookupList_eq_none_iff (l : List (K × V)) (k : K) :
    lookupList l k = none ↔ ∀ e ∈ l, e.1 ≠ k := by
  induction l with
  | nil => simp [lookupList]
  | cons e rest ih =>
    by_cases hk : e.1 = k
    · simp [lookupList, hk]
    · simp [lookupList, hk, ih]

theorem get?_empty (k : K) : (empty : GoMap K V).get? k = none := rfl

theorem get?_delete (m : GoMap K V) (k k' : K) :
    (m.delete k).get? k' = if k' = k then none else m.get? k' :=
  lookupList_filter m.entries k k'

theorem get?_set (m : GoMap K V) (k k' : K) (v : V) :
    (m.set k v).get? k' = if k' = k then some v else m.get? k' := by
  show lookupList ((k, v) :: (m.delete k).entries) k' = _
  by_cases h : k' = k
  · simp [lookupList, h]
  · have h2 : ¬ k = k' := fun e => h e.symm
    have := get?_delete m k k'
    simp only [get?] at this
    simp [lookupList, h, h2, this, get?]

theorem get?_mapVals (f : V → W) (m : GoMap K V) (k : K) :
    (m.mapVals f).get? k = (m.get? k).map f := by
  show lookupList (m.entries.map _) k = (lookupList m.entries k).map f
  induction m.entries with
  | nil => simp [lookupList]
  | cons e rest ih =>
    by_cases hk : e.1 = k
    · simp [lookupList, hk]
    · simp [lookupList, hk, ih]

theorem delete_of_get?_none (m : GoMap K V) (k : K) (h : m.get? k = none) :
    m.delete k = m := by
  apply ext_entries
  show m.entries.filter _ = m.entries
  rw [List.filter_eq_self]
  intro e he
  have := (lookupList_eq_none_iff m.entries k).1 h e he
  simpa using this

omit [DecidableEq K] in
theorem mapVals_of_fixed (f : V → V) (m : GoMap K V)
    (h : ∀ e ∈ m.entries, f e.2 = e.2) : m.mapVals f = m := by
  apply ext_entries
  show m.entries.map _ = m.entries
  conv_rhs => rw [← List.map_id m.entries]
  apply List.map_congr_left
  intro e he
  exact Prod.ext rfl (h e he)

theorem get?_of_len_zero (m : GoMap K V) (h : m.len = 0) (k : K) : m.get? k = none := by
  have : m.entries = [] := List.length_eq_zero.1 h
  simp [get?, this, lookupList]

theorem contains_eq_false_iff (m : GoMap K V) (k : K) :
    m.contains k = false ↔ m.get? k = none := by
  simp [contains]

theorem contains_eq_true_iff (m : GoMap K V) (k : K) :
    m.contains k = true ↔ ∃ v, m.get? k = some v := by
  simp [contains, Option.isSome_iff_exists]

theorem mem_keys_iff (m : GoMap K V) (k : K) : k ∈ m.keys ↔ m.contains k = true := by
  rw [← Bool.not_eq_false, contains_eq_false_iff]
  show k ∈ m.entries.map Prod.fst ↔ ¬ lookupList m.entries k = none
  rw [lookupList_eq_none_iff]
  simp

theorem foldl_set_get? (f : V → W) (l : List (K × V)) (hn : (l.map Prod.fst).Nodup)
    (acc : GoMap K W) (k : K) :
    (l.foldl (fun out e => out.set e.1 (f e.2)) acc).get? k =
      match lookupList l k with
      | some v => some (f v)
      | none => acc.get? k := by
  induction l generalizing acc with
  | nil => simp [lookupList]
  | cons e rest ih =>
    simp only [List.map_cons, List.nodup_cons] at hn
    rw [List.foldl_cons, ih hn.2]
    by_cases hk : e.1 = k
    · have hnone : lookupList rest k = none := by
        rw [lookupList_eq_none_iff]
        intro e' he' hk'
        exact hn.1 (List.mem_map.2 ⟨e', he', hk'.trans hk.symm⟩)
      simp [lookupList, hk, hnone, get?_set]
    · have hk2 : ¬ k = e.1 := fun h => hk h.symm
      simp [lookupList, hk, get?_set, hk2]

theorem get?_copyWith (f : V → W) (m : GoMap K V) (k : K) :
    (m.copyWith f).get? k = (m.get? k).map f := by
  unfold copyWith
  rw [foldl_set_get? f m.entries m.nodup]
  show (match lookupList m.entries k with
      | some v => some (f v)
      | none => (empty : GoMap K W).get? k) = (lookupList m.entries k).map f
  cases lookupList m.entries k <;> simp [get?_empty]

end GoMap

/-! ## Facts about the ledger -/

namespace Game

theorem hasBoop_eq (g : GameState) (s t : String) :
    hasBoop g s t = (ledgerGet g.BoopLog s t).getD false := by
  unfold hasBoop ledgerGet
  cases g.BoopLog.get? s <;> rfl

theorem hasBoop_eq_true_iff (g : GameState) (s t : String) :
    hasBoop g s t = true ↔ ledgerGet g.BoopLog s t = some true := by
  rw [hasBoop_eq]
  cases ledgerGet g.BoopLog s t with
  | none => simp
  | some v => simp

theorem ledgerGet_removeOpposite (log : GoMap String (GoMap String Bool)) (s t x y : String) :
    ledgerGet (removeOpposite log s t) x y =
      if x = t ∧ y = s then none else ledgerGet log x y := by
  unfold removeOpposite
  cases h : log.get? t with
  | none =>
    simp only
    split
    · rename_i hc
      rw [hc.1]
      simp [ledgerGet, h]
    · rfl
  | some inner =>
    simp only
    by_cases hx : x = t
    · subst hx
      by_cases hl : (inner.delete s).len = 0
      · have hnone := GoMap.get?_of_len_zero _ hl y
        rw [GoMap.get?_delete] at hnone
        simp only [hl, if_true, ledgerGet, GoMap.get?_delete, h]
        by_cases hy : y = s
        · simp [hy]
        · simp only [hy, if_false] at hnone
          simp [hy, hnone]
      · simp only [hl, if_false, ledgerGet, GoMap.get?_set, if_true, GoMap.get?_delete, h]
        by_cases hy : y = s <;> simp [hy]
    · by_cases hl : (inner.delete s).len = 0
      · simp [hl, ledgerGet, GoMap.get?_delete, GoMap.get?_set, hx]
      · simp [hl, ledgerGet, GoMap.get?_set, hx]

theorem ledgerGet_storeBoop (log : GoMap String (GoMap String Bool)) (s t x y : String) :
    ledgerGet (storeBoop log s t) x y =
      if x = s ∧ y = t then some true else ledgerGet log x y := by
  unfold storeBoop
  by_cases hx : x = s
  · subst hx
    cases h : log.get? x with
    | none =>
      by_cases hy : y = t
      · simp [ledgerGet, GoMap.get?_set, GoMap.getD, hy]
      · simp [ledgerGet, GoMap.get?_set, GoMap.getD, hy, h, GoMap.get?_delete, GoMap.get?_empty]
    | some inner =>
      by_cases hy : y = t
      · simp [ledgerGet, GoMap.get?_set, GoMap.getD, hy]
      · simp [ledgerGet, GoMap.get?_set, GoMap.getD, hy, h]
  · cases h : log.get? s with
    | none => simp [ledgerGet, GoMap.get?_set, hx]
    | some inner => simp [ledgerGet, GoMap.get?_set, hx]

theorem ledgerGet_RemovePlayer (g : GameState) (id x y : String) :
    ledgerGet (RemovePlayer g id).BoopLog x y =
      if x = id ∨ y = id then none else ledgerGet g.BoopLog x y := by
  simp only [RemovePlayer, ledgerGet, GoMap.get?_mapVals, GoMap.get?_delete]
  by_cases hx : x = id
  · simp [hx]
  · cases h : g.BoopLog.get? x with
    | none => simp [hx]
    | some inner =>
      by_cases hy : y = id
      · simp [hx, hy, GoMap.get?_delete]
      · simp [hx, hy, GoMap.get?_delete]

theorem ledgerGet_RecordBoop (g : GameState) (s t x y : String) (h : hasBoop g s t = false) :
    ledgerGet (RecordBoop g s t).1.BoopLog x y =
      if x = s ∧ y = t then some true
      else if x = t ∧ y = s then none else ledgerGet g.BoopLog x y := by
  simp only [RecordBoop, h, Bool.false_eq_true, if_false, ledgerGet_storeBoop,
    ledgerGet_removeOpposite]

theorem RecordBoop_of_hasBoop (g : GameState) (s t : String) (h : hasBoop g s t = true) :
    RecordBoop g s t = (g, false) := by
  simp [RecordBoop, h]

/-- Every flag stored in the ledger of a reachable state is `true`. -/
theorem stored_flags_true (g : GameState) (hr : Reachable g) (x y : String) (v : Bool)
    (hv : ledgerGet g.BoopLog x y = some v) : v = true := by
  induction hr generalizing x y v with
  | init => simp [NewGame, ledgerGet, GoMap.get?_empty] at hv
  | step g op _ ih =>
    cases op with
    | addPlayer p => exact ih x y v hv
    | removePlayer id =>
      simp only [Op.apply, ledgerGet_RemovePlayer] at hv
      split at hv
      · cases hv
      · exact ih x y v hv
    | recordBoop s t =>
      simp only [Op.apply] at hv
      cases hd : hasBoop g s t with
      | true =>
        rw [RecordBoop_of_hasBoop g s t hd] at hv
        exact ih x y v hv
      | false =>
        rw [ledgerGet_RecordBoop g s t x y hd] at hv
        split at hv
        · cases hv; rfl
        · split at hv
          · cases hv
          · exact ih x y v hv

end Game

/-! ## Facts about the counters and about removal -/

namespace GoMap

variable {K V W : Type} [DecidableEq K]

theorem getD_delete (m : GoMap K V) (k k' : K) (d : V) :
    (m.delete k).getD k' d = if k' = k then d else m.getD k' d := by
  simp only [getD, get?_delete]
  split <;> rfl

theorem getD_set (m : GoMap K V) (k k' : K) (v d : V) :
    (m.set k v).getD k' d = if k' = k then v else m.getD k' d := by
  simp only [getD, get?_set]
  split <;> rfl

theorem contains_delete_self (m : GoMap K V) (k : K) : (m.delete k).contains k = false := by
  simp [contains, get?_delete]

theorem contains_copyWith (f : V → W) (m : GoMap K V) (k : K) :
    (m.copyWith f).contains k = m.contains k := by
  simp [contains, get?_copyWith]

end GoMap

namespace Game

/-- In a reachable state no two distinct identities have an entry in both directions. -/
theorem not_both_stored (g : GameState) (hr : Reachable g) (A B : String) (hne : A ≠ B)
    (h1 : (ledgerGet g.BoopLog A B).isSome = true)
    (h2 : (ledgerGet g.BoopLog B A).isSome = true) : False := by
  induction hr generalizing A B with
  | init => simp [NewGame, ledgerGet, GoMap.get?_empty] at h1
  | step g op _ ih =>
    cases op with
    | addPlayer p => exact ih A B hne h1 h2
    | removePlayer id =>
      simp only [Op.apply, ledgerGet_RemovePlayer] at h1 h2
      split at h1
      · simp at h1
      · split at h2
        · simp at h2
        · exact ih A B hne h1 h2
    | recordBoop s t =>
      simp only [Op.apply] at h1 h2
      cases hd : hasBoop g s t with
      | true =>
        rw [RecordBoop_of_hasBoop g s t hd] at h1 h2
        exact ih A B hne h1 h2
      | false =>
        rw [ledgerGet_RecordBoop g s t _ _ hd] at h1 h2
        split_ifs at h1 h2 <;> simp_all

theorem RecordBoop_snd (g : GameState) (s t : String) :
    (RecordBoop g s t).2 = !hasBoop g s t := by
  unfold RecordBoop
  cases hasBoop g s t <;> simp

theorem RecordBoop_made (g : GameState) (s t : String) (h : hasBoop g s t = false) :
    (RecordBoop g s t).1.BoopsMade =
      g.BoopsMade.set s (wrapInt (g.BoopsMade.getD s 0 + 1)) := by
  simp [RecordBoop, h]

theorem RecordBoop_received (g : GameState) (s t : String) (h : hasBoop g s t = false) :
    (RecordBoop g s t).1.BoopsReceived =
      g.BoopsReceived.set t (wrapInt (g.BoopsReceived.getD t 0 + 1)) := by
  simp [RecordBoop, h]

/-- Below `maxInt` the increment of a counter does not wrap. -/
theorem le_wrapInt_succ (x : Int) (h : x < maxInt) : x ≤ wrapInt (x + 1) := by
  unfold maxInt at h
  unfold wrapInt
  omega

theorem wrapInt_one : wrapInt 1 = 1 := by decide

theorem made_RecordBoop (g : GameState) (s t id : String)
    (h : g.BoopsMade.getD id 0 < maxInt) :
    g.BoopsMade.getD id 0 ≤ (RecordBoop g s t).1.BoopsMade.getD id 0 := by
  unfold RecordBoop
  split
  · exact le_refl _
  · simp only [GoMap.getD_set]
    split
    · rename_i hid
      rw [← hid]
      exact le_wrapInt_succ _ h
    · exact le_refl _

theorem received_RecordBoop (g : GameState) (s t id : String)
    (h : g.BoopsReceived.getD id 0 < maxInt) :
    g.BoopsReceived.getD id 0 ≤ (RecordBoop g s t).1.BoopsReceived.getD id 0 := by
  unfold RecordBoop
  split
  · exact le_refl _
  · simp only [GoMap.getD_set]
    split
    · rename_i hid
      rw [← hid]
      exact le_wrapInt_succ _ h
    · exact le_refl _

end Game

/-! ## The properties of the game state -/

/-- C1. Boop-direction invariant: in every state reachable from `NewGame` through
`AddPlayer`, `RemovePlayer` and `RecordBoop` calls with arbitrary arguments, for
identities `A ≠ B` the ledger never contains both `A -> B` and `B -> A`: neither as
pairs that the ledger test reports, nor as stored entries of any flag. -/
theorem boop_direction_invariant (g : GameState) (hr : Game.Reachable g) (A B : String)
    (hne : A ≠ B) :
    ¬ (Game.hasBoop g A B = true ∧ Game.hasBoop g B A = true) ∧
    ¬ (Game.pairStored g A B = true ∧ Game.pairStored g B A = true) := by
  constructor
  · rintro ⟨h1, h2⟩
    rw [Game.hasBoop_eq_true_iff] at h1 h2
    exact Game.not_both_stored g hr A B hne (by simp [h1]) (by simp [h2])
  · rintro ⟨h1, h2⟩
    exact Game.not_both_stored g hr A B hne h1 h2

/-- The invariant C1 at the state after `RecordBoop("a", "b")` then `RecordBoop("b", "a")`. -/
theorem boop_direction_invariant_witness :
    "a" ≠ "b" ∧
    ¬ (Game.hasBoop (Game.Op.apply (Game.Op.apply NewGame (.recordBoop "a" "b"))
          (.recordBoop "b" "a")) "a" "b" = true ∧
       Game.hasBoop (Game.Op.apply (Game.Op.apply NewGame (.recordBoop "a" "b"))
          (.recordBoop "b" "a")) "b" "a" = true) :=
  ⟨by decide,
   (boop_direction_invariant _ (.step _ _ (.step _ _ .init)) "a" "b" (by decide)).1⟩

/-- C2. `RecordBoop(s, t)` returns `false` exactly when the pair `s -> t` is already in
the ledger and `true` otherwise; from a state without `s -> t`, two consecutive calls
`RecordBoop(s, t)` return `true` and then `false`. -/
theorem record_boop_returns (g : GameState) (s t : String) :
    ((Game.RecordBoop g s t).2 = false ↔ Game.hasBoop g s t = true) ∧
    ((Game.RecordBoop g s t).2 = true ↔ Game.hasBoop g s t = false) ∧
    (Game.hasBoop g s t = false →
      (Game.RecordBoop g s t).2 = true ∧
      (Game.RecordBoop (Game.RecordBoop g s t).1 s t).2 = false) := by
  have hret := Game.RecordBoop_snd g s t
  refine ⟨?_, ?_, ?_⟩
  · rw [hret]; cases Game.hasBoop g s t <;> simp
  · rw [hret]; cases Game.hasBoop g s t <;> simp
  · intro h
    have h2 : Game.hasBoop (Game.RecordBoop g s t).1 s t = true := by
      rw [Game.hasBoop_eq_true_iff, Game.ledgerGet_RecordBoop g s t s t h]
      simp
    refine ⟨by rw [hret, h]; rfl, ?_⟩
    rw [Game.RecordBoop_of_hasBoop _ s t h2]

/-- C3. Direction flip: for `A ≠ B` and a state whose ledger has neither `A -> B` nor
`B -> A`, `RecordBoop(A, B)` then `RecordBoop(B, A)` return `true` and `true`, and
afterwards the ledger contains `B -> A` and has no entry for `A -> B`. -/
theorem direction_flip (g : GameState) (A B : String) (hne : A ≠ B)
    (hAB : Game.hasBoop g A B = false) (_hBA : Game.hasBoop g B A = false) :
    (Game.RecordBoop g A B).2 = true ∧
    (Game.RecordBoop (Game.RecordBoop g A B).1 B A).2 = true ∧
    Game.hasBoop (Game.RecordBoop (Game.RecordBoop g A B).1 B A).1 B A = true ∧
    Game.hasBoop (Game.RecordBoop (Game.RecordBoop g A B).1 B A).1 A B = false ∧
    Game.pairStored (Game.RecordBoop (Game.RecordBoop g A B).1 B A).1 A B = false := by
  have hne2 : ¬ B = A := fun h => hne h.symm
  have h1 : Game.hasBoop (Game.RecordBoop g A B).1 B A = false := by
    rw [Game.hasBoop_eq, Game.ledgerGet_RecordBoop g A B B A hAB]
    simp [hne, hne2]
  have hstored : Game.ledgerGet (Game.RecordBoop (Game.RecordBoop g A B).1 B A).1.BoopLog A B
      = none := by
    rw [Game.ledgerGet_RecordBoop _ B A A B h1]
    simp [hne, hne2]
  refine ⟨by rw [Game.RecordBoop_snd, hAB]; rfl, by rw [Game.RecordBoop_snd, h1]; rfl,
    ?_, ?_, ?_⟩
  · rw [Game.hasBoop_eq_true_iff, Game.ledgerGet_RecordBoop _ B A B A h1]
    simp
  · rw [Game.hasBoop_eq, hstored]
    rfl
  · simp [Game.pairStored, hstored]

/-- The flip C3 from the empty state with `A = "a"` and `B = "b"`. -/
theorem direction_flip_witness :
    (Game.RecordBoop NewGame "a" "b").2 = true ∧
    (Game.RecordBoop (Game.RecordBoop NewGame "a" "b").1 "b" "a").2 = true ∧
    Game.hasBoop (Game.RecordBoop (Game.RecordBoop NewGame "a" "b").1 "b" "a").1 "b" "a" = true ∧
    Game.hasBoop (Game.RecordBoop (Game.RecordBoop NewGame "a" "b").1 "b" "a").1 "a" "b" = false ∧
    Game.pairStored (Game.RecordBoop (Game.RecordBoop NewGame "a" "b").1 "b" "a").1 "a" "b"
      = false :=
  direction_flip NewGame "a" "b" (by decide) (by decide) (by decide)

/-- C4 as stated fails: from the empty state, after `RecordBoop("a", "b")` then
`RecordBoop("b", "a")` the counter `BoopsReceived["a"]` is 1, so the four values are
not made 1, received 0 for `"a"` and made 1, received 1 for `"b"`. -/
theorem flip_counters_counterexample :
    (Game.RecordBoop (Game.RecordBoop NewGame "a" "b").1 "b" "a").1.BoopsReceived.getD "a" 0 = 1 ∧
    ¬ ((Game.RecordBoop (Game.RecordBoop NewGame "a" "b").1 "b" "a").1.BoopsMade.getD "a" 0 = 1 ∧
       (Game.RecordBoop (Game.RecordBoop NewGame "a" "b").1 "b" "a").1.BoopsReceived.getD "a" 0 = 0 ∧
       (Game.RecordBoop (Game.RecordBoop NewGame "a" "b").1 "b" "a").1.BoopsMade.getD "b" 0 = 1 ∧
       (Game.RecordBoop (Game.RecordBoop NewGame "a" "b").1 "b" "a").1.BoopsReceived.getD "b" 0 = 1) := by
  decide

/-- C4, amended. Counters after a flip: from the empty state, for `A ≠ B`, after
`RecordBoop(A, B)` then `RecordBoop(B, A)` every one of `BoopsMade[A]`,
`BoopsReceived[A]`, `BoopsMade[B]` and `BoopsReceived[B]` is 1. -/
theorem flip_counters (A B : String) (hne : A ≠ B) :
    (Game.RecordBoop (Game.RecordBoop NewGame A B).1 B A).1.BoopsMade.getD A 0 = 1 ∧
    (Game.RecordBoop (Game.RecordBoop NewGame A B).1 B A).1.BoopsReceived.getD A 0 = 1 ∧
    (Game.RecordBoop (Game.RecordBoop NewGame A B).1 B A).1.BoopsMade.getD B 0 = 1 ∧
    (Game.RecordBoop (Game.RecordBoop NewGame A B).1 B A).1.BoopsReceived.getD B 0 = 1 := by
  have hne2 : ¬ B = A := fun h => hne h.symm
  have h0 : Game.hasBoop NewGame A B = false := rfl
  have h1 : Game.hasBoop (Game.RecordBoop NewGame A B).1 B A = false := by
    rw [Game.hasBoop_eq, Game.ledgerGet_RecordBoop NewGame A B B A h0]
    simp [hne, hne2, NewGame, Game.ledgerGet, GoMap.get?_empty]
  rw [Game.RecordBoop_made _ B A h1, Game.RecordBoop_received _ B A h1,
    Game.RecordBoop_made _ A B h0, Game.RecordBoop_received _ A B h0]
  simp [hne, hne2, NewGame, GoMap.getD, GoMap.get?_set, GoMap.get?_empty,
    Game.wrapInt_one]

/-- The amended C4 with `A = "a"` and `B = "b"`. -/
theorem flip_counters_witness :
    "a" ≠ "b" ∧
    (Game.RecordBoop (Game.RecordBoop NewGame "a" "b").1 "b" "a").1.BoopsReceived.getD "a" 0 = 1 :=
  ⟨by decide, (flip_counters "a" "b" (by decide)).2.1⟩

/-- C5. After `RemovePlayer(X)` the result of `Snapshot` has `X` absent as a key of
`players`, as a source key of `boopLog`, as a target in every inner map of `boopLog`,
and as a key of `boopsMade` and of `boopsReceived`. -/
theorem snapshot_after_remove (g : GameState) (X : String) :
    (Game.Snapshot (Game.RemovePlayer g X)).players.contains X = false ∧
    (Game.Snapshot (Game.RemovePlayer g X)).boopLog.contains X = false ∧
    (∀ a inner, (Game.Snapshot (Game.RemovePlayer g X)).boopLog.get? a = some inner →
      inner.contains X = false) ∧
    (Game.Snapshot (Game.RemovePlayer g X)).boopsMade.contains X = false ∧
    (Game.Snapshot (Game.RemovePlayer g X)).boopsReceived.contains X = false := by
  refine ⟨?_, ?_, ?_, ?_, ?_⟩
  · simp [Game.Snapshot, Game.RemovePlayer, GoMap.contains_copyWith, GoMap.contains_delete_self]
  · simp [Game.Snapshot, Game.RemovePlayer, GoMap.contains, GoMap.get?_copyWith,
      GoMap.get?_mapVals, GoMap.get?_delete]
  · intro a inner h
    simp only [Game.Snapshot, Game.RemovePlayer, GoMap.get?_copyWith, GoMap.get?_mapVals,
      Option.map_map] at h
    cases h0 : (g.BoopLog.delete X).get? a with
    | none => simp [h0] at h
    | some inner0 =>
      simp only [h0, Option.map_some', Function.comp_apply, Option.some.injEq] at h
      rw [← h, GoMap.contains_copyWith, GoMap.contains_delete_self]
  · simp [Game.Snapshot, Game.RemovePlayer, GoMap.contains_copyWith, GoMap.contains_delete_self]
  · simp [Game.Snapshot, Game.RemovePlayer, GoMap.contains_copyWith, GoMap.contains_delete_self]

/-- C6 as stated fails: the state after `RecordBoop("a", "b")` on the empty game is
reachable and `"a"` is not a key of `Players`, yet `RemovePlayer("a")` changes
`BoopLog` and `BoopsMade`. -/
theorem remove_absent_counterexample :
    Game.Reachable (Game.Op.apply NewGame (.recordBoop "a" "b")) ∧
    (Game.Op.apply NewGame (.recordBoop "a" "b")).Players.contains "a" = false ∧
    (Game.RemovePlayer (Game.Op.apply NewGame (.recordBoop "a" "b")) "a").BoopLog ≠
      (Game.Op.apply NewGame (.recordBoop "a" "b")).BoopLog ∧
    (Game.RemovePlayer (Game.Op.apply NewGame (.recordBoop "a" "b")) "a").BoopsMade ≠
      (Game.Op.apply NewGame (.recordBoop "a" "b")).BoopsMade :=
  ⟨.step _ _ .init, by decide, by decide, by decide⟩

/-- C6, amended. For every game state and every `id` that is not a key of `Players`,
`RemovePlayer(id)` leaves `Players` unchanged; when `id` is moreover neither a source
key of `BoopLog`, nor a target in an inner map of `BoopLog`, nor a key of `BoopsMade`
or `BoopsReceived`, it leaves the whole state unchanged. -/
theorem remove_absent (g : GameState) (id : String) (hP : g.Players.contains id = false) :
    (Game.RemovePlayer g id).Players = g.Players ∧
    (g.BoopLog.contains id = false →
     (∀ e ∈ g.BoopLog.entries, e.2.contains id = false) →
     g.BoopsMade.contains id = false → g.BoopsReceived.contains id = false →
     Game.RemovePlayer g id = g) := by
  rw [GoMap.contains_eq_false_iff] at hP
  have hPl : (Game.RemovePlayer g id).Players = g.Players :=
    GoMap.delete_of_get?_none _ _ hP
  refine ⟨hPl, ?_⟩
  intro hL hT hM hR
  rw [GoMap.contains_eq_false_iff] at hL hM hR
  have h1 : g.BoopLog.delete id = g.BoopLog := GoMap.delete_of_get?_none _ _ hL
  have h2 : (g.BoopLog.delete id).mapVals (fun inner => inner.delete id) = g.BoopLog := by
    rw [h1]
    apply GoMap.mapVals_of_fixed
    intro e he
    exact GoMap.delete_of_get?_none _ _ ((GoMap.contains_eq_false_iff _ _).1 (hT e he))
  cases g
  simp only [Game.RemovePlayer] at *
  simp only [GameState.mk.injEq]
  exact ⟨GoMap.delete_of_get?_none _ _ hP, h2, GoMap.delete_of_get?_none _ _ hM,
    GoMap.delete_of_get?_none _ _ hR⟩

/-- The amended C6 at the state after `RecordBoop("a", "b")` on the empty game, with
the identity `"c"` that occurs nowhere. -/
theorem remove_absent_witness :
    (Game.Op.apply NewGame (.recordBoop "a" "b")).Players.contains "c" = false ∧
    Game.RemovePlayer (Game.Op.apply NewGame (.recordBoop "a" "b")) "c" =
      Game.Op.apply NewGame (.recordBoop "a" "b") :=
  ⟨by decide,
   (remove_absent (Game.Op.apply NewGame (.recordBoop "a" "b")) "c" (by decide)).2
     (by decide) (by decide) (by decide) (by decide)⟩

/-- C7 as stated fails where a counter holds the largest `int`: with
`BoopsMade["a"] = maxInt`, the accepted call `RecordBoop("a", "b")` wraps the counter
around to `minInt`, which is below its value before the call. -/
theorem counters_monotone_counterexample :
    Game.hasBoop { NewGame with BoopsMade := GoMap.empty.set "a" maxInt } "a" "b" = false ∧
    (Game.RecordBoop { NewGame with BoopsMade := GoMap.empty.set "a" maxInt } "a" "b").1.BoopsMade.getD
      "a" 0 = minInt ∧
    ¬ (({ NewGame with BoopsMade := GoMap.empty.set "a" maxInt } : GameState).BoopsMade.getD "a" 0 ≤
       (Game.RecordBoop { NewGame with BoopsMade := GoMap.empty.set "a" maxInt }
          "a" "b").1.BoopsMade.getD "a" 0) := by
  decide

/-- C7, amended. Counters never decrease while a participant is present, short of
integer overflow: for every game state and identity `id`, each of `AddPlayer(p)` and
`RemovePlayer(other)` with `other ≠ id` leaves `BoopsMade[id]` and `BoopsReceived[id]`
(a missing key read as 0) at least as large as before, and so does `RecordBoop(s, t)`
for each of the two counters that is below the largest `int` before the call. -/
theorem counters_monotone (g : GameState) (id : String) :
    (∀ p, g.BoopsMade.getD id 0 ≤ (Game.AddPlayer g p).BoopsMade.getD id 0 ∧
          g.BoopsReceived.getD id 0 ≤ (Game.AddPlayer g p).BoopsReceived.getD id 0) ∧
    (∀ s t,
      (g.BoopsMade.getD id 0 < maxInt →
          g.BoopsMade.getD id 0 ≤ (Game.RecordBoop g s t).1.BoopsMade.getD id 0) ∧
      (g.BoopsReceived.getD id 0 < maxInt →
          g.BoopsReceived.getD id 0 ≤ (Game.RecordBoop g s t).1.BoopsReceived.getD id 0)) ∧
    (∀ other, other ≠ id →
          g.BoopsMade.getD id 0 ≤ (Game.RemovePlayer g other).BoopsMade.getD id 0 ∧
          g.BoopsReceived.getD id 0 ≤ (Game.RemovePlayer g other).BoopsReceived.getD id 0) := by
  refine ⟨fun p => ⟨le_refl _, le_refl _⟩,
    fun s t => ⟨Game.made_RecordBoop g s t id, Game.received_RecordBoop g s t id⟩, ?_⟩
  intro other hne
  have hne2 : ¬ id = other := fun h => hne h.symm
  simp [Game.RemovePlayer, GoMap.getD_delete, hne2]

/-- The amended C7 at the empty game: `BoopsMade["a"]` is 0, below `maxInt`, and
`RecordBoop("a", "b")` raises it to 1. -/
theorem counters_monotone_witness :
    NewGame.BoopsMade.getD "a" 0 < maxInt ∧
    NewGame.BoopsMade.getD "a" 0 ≤ (Game.RecordBoop NewGame "a" "b").1.BoopsMade.getD "a" 0 ∧
    (Game.RecordBoop NewGame "a" "b").1.BoopsMade.getD "a" 0 = 1 :=
  ⟨by decide, ((counters_monotone NewGame "a").2.1 "a" "b").1 (by decide), by decide⟩

/-! ## Facts about the fan-out loop -/

namespace Hub

theorem heap_setSend (h : HubState) (c c' : Nat) (ch : Chan) :
    (setSend h c ch).heap c' = if c' = c then (h.heap c).withSend ch else h.heap c' := by
  unfold setSend
  by_cases hc : c' = c
  · subst hc
    simp
  · simp [Function.update_noteq hc, hc]

theorem sendOrDrop_open (msg : Msg) (h : HubState) (c : Nat)
    (ho : (h.heap c).send.closed = false) :
    sendOrDrop msg h c =
      if (h.heap c).send.buf.length < (h.heap c).send.cap then
        some (setSend h c ((h.heap c).send.push msg))
      else
        some { setSend h c (h.heap c).send.shut with clients := h.clients.delete c } := by
  unfold sendOrDrop Chan.trySend Chan.close
  by_cases hroom : (h.heap c).send.buf.length < (h.heap c).send.cap
  · simp [ho, hroom]
  · simp [ho, hroom]

/-- The fan-out loop over the members `l`, all with an open queue: it ends without a
panic, and the state afterwards is described member by member. -/
theorem foldl_sendOrDrop (msg : Msg) (l : List Nat) (hn : l.Nodup) (h : HubState)
    (hopen : ∀ c ∈ l, (h.heap c).send.closed = false) :
    ∃ h', l.foldl (fun acc c => acc.bind (fun h1 => sendOrDrop msg h1 c)) (some h) = some h' ∧
      h'.game = h.game ∧
      (∀ c, c ∉ l → h'.heap c = h.heap c) ∧
      (∀ c, c ∈ l → h'.heap c =
          if (h.heap c).send.buf.length < (h.heap c).send.cap then
            (h.heap c).withSend ((h.heap c).send.push msg)
          else (h.heap c).withSend (h.heap c).send.shut) ∧
      (∀ c, h'.clients.get? c =
          if c ∈ l ∧ ¬ (h.heap c).send.buf.length < (h.heap c).send.cap then none
          else h.clients.get? c) := by
  induction l generalizing h with
  | nil =>
    exact ⟨h, rfl, rfl, fun _ _ => rfl, fun _ hc => absurd hc (List.not_mem_nil _),
      fun c => by simp⟩
  | cons c rest ih =>
    have hc_open := hopen c (List.mem_cons_self _ _)
    rw [List.nodup_cons] at hn
    rw [List.foldl_cons, Option.some_bind, sendOrDrop_open msg h c hc_open]
    have hrest : ∀ c', c' ∈ rest → c' ≠ c := fun c' hc' e => hn.1 (e ▸ hc')
    by_cases hroom : (h.heap c).send.buf.length < (h.heap c).send.cap
    · simp only [hroom, if_true]
      obtain ⟨h', hf, hg, hout, hin, hcl⟩ := ih hn.2
        (setSend h c ((h.heap c).send.push msg))
        (fun c' hc' => by
          rw [heap_setSend, if_neg (hrest c' hc')]
          exact hopen c' (List.mem_cons_of_mem _ hc'))
      refine ⟨h', hf, hg, ?_, ?_, ?_⟩
      · intro c' hc'
        rw [List.mem_cons, not_or] at hc'
        rw [hout c' hc'.2, heap_setSend, if_neg hc'.1]
      · intro c' hc'
        by_cases hcc : c' = c
        · subst hcc
          rw [hout c' hn.1, heap_setSend, if_pos rfl, if_pos hroom]
        · have hmem : c' ∈ rest := by
            rcases List.mem_cons.1 hc' with h1 | h1
            · exact absurd h1 hcc
            · exact h1
          rw [hin c' hmem, heap_setSend, if_neg hcc]
      · intro c'
        rw [hcl c', heap_setSend]
        by_cases hcc : c' = c
        · subst hcc
          simp [hn.1, hroom, setSend]
        · simp [hcc, setSend]
    · simp only [hroom, if_false]
      obtain ⟨h', hf, hg, hout, hin, hcl⟩ := ih hn.2
        { setSend h c (h.heap c).send.shut with clients := h.clients.delete c }
        (fun c' hc' => by
          show ((setSend h c _).heap c').send.closed = false
          rw [heap_setSend, if_neg (hrest c' hc')]
          exact hopen c' (List.mem_cons_of_mem _ hc'))
      have hheap : ∀ c', ({ setSend h c (h.heap c).send.shut with
          clients := h.clients.delete c } : HubState).heap c' =
          if c' = c then (h.heap c).withSend (h.heap c).send.shut
          else h.heap c' := fun c' => heap_setSend h c c' _
      refine ⟨h', hf, hg, ?_, ?_, ?_⟩
      · intro c' hc'
        rw [List.mem_cons, not_or] at hc'
        rw [hout c' hc'.2, hheap, if_neg hc'.1]
      · intro c' hc'
        by_cases hcc : c' = c
        · subst hcc
          rw [hout c' hn.1, hheap, if_pos rfl, if_neg hroom]
        · have hmem : c' ∈ rest := by
            rcases List.mem_cons.1 hc' with h1 | h1
            · exact absurd h1 hcc
            · exact h1
          rw [hin c' hmem, hheap, if_neg hcc]
      · intro c'
        rw [hcl c', hheap]
        by_cases hcc : c' = c
        · subst hcc
          simp [hn.1, hroom, GoMap.get?_delete]
        · simp [hcc, GoMap.get?_delete, setSend]

end Hub

namespace Hub

/-- The fan-out loop from a state whose members all have an open queue. -/
theorem fanOut_of_open (msg : Msg) (h : HubState) (hopen : MembersOpen h) :
    ∃ h', fanOut msg h = some h' ∧
      h'.game = h.game ∧
      (∀ c, h.clients.contains c = false → h'.heap c = h.heap c) ∧
      (∀ c, h.clients.contains c = true → h'.heap c =
          if (h.heap c).send.buf.length < (h.heap c).send.cap then
            (h.heap c).withSend ((h.heap c).send.push msg)
          else (h.heap c).withSend (h.heap c).send.shut) ∧
      (∀ c, h'.clients.get? c =
          if h.clients.contains c = true ∧ ¬ (h.heap c).send.buf.length < (h.heap c).send.cap
          then none else h.clients.get? c) := by
  obtain ⟨h', hf, hg, hout, hin, hcl⟩ := foldl_sendOrDrop msg h.clients.keys h.clients.nodup h
    (fun c hc => hopen c ((GoMap.mem_keys_iff _ _).1 hc))
  refine ⟨h', hf, hg, ?_, ?_, ?_⟩
  · intro c hc
    apply hout
    rw [GoMap.mem_keys_iff, hc]
    simp
  · intro c hc
    exact hin c ((GoMap.mem_keys_iff _ _).2 hc)
  · intro c
    rw [hcl c]
    simp only [GoMap.mem_keys_iff]

theorem fanOut_membersOpen (msg : Msg) (h : HubState) (hopen : MembersOpen h) :
    ∃ h', fanOut msg h = some h' ∧ MembersOpen h' := by
  obtain ⟨h', hf, -, -, hin, hcl⟩ := fanOut_of_open msg h hopen
  refine ⟨h', hf, ?_⟩
  intro c hc
  have hget := hcl c
  by_cases hm : h.clients.contains c = true
  · by_cases hroom : (h.heap c).send.buf.length < (h.heap c).send.cap
    · rw [hin c hm, if_pos hroom]
      exact hopen c hm
    · rw [if_pos ⟨hm, hroom⟩] at hget
      simp [GoMap.contains, hget] at hc
  · rw [if_neg (fun hh => hm hh.1)] at hget
    simp only [GoMap.contains, hget] at hc
    exact absurd hc hm

theorem contains_set (m : GoMap Nat Bool) (c c' : Nat) (v : Bool) :
    (m.set c v).contains c' = (decide (c' = c) || m.contains c') := by
  by_cases hc : c' = c
  · simp [GoMap.contains, GoMap.get?_set, hc]
  · simp [GoMap.contains, GoMap.get?_set, hc]

theorem contains_delete (m : GoMap Nat Bool) (c c' : Nat) :
    (m.delete c).contains c' = (!decide (c' = c) && m.contains c') := by
  by_cases hc : c' = c
  · simp [GoMap.contains, GoMap.get?_delete, hc]
  · simp [GoMap.contains, GoMap.get?_delete, hc]

/-- Processing `unregister` from a state whose members all have an open queue. -/
theorem step_unregister_open (leftMsg : String → Option Msg) (h : HubState)
    (hopen : MembersOpen h) (c : Nat) :
    ∃ h', step leftMsg h (.unregister c) = some h' ∧ MembersOpen h' := by
  unfold step
  by_cases hm : h.clients.contains c = true
  · have hc_open : (h.heap c).send.closed = false := hopen c hm
    have hclose : (h.heap c).send.close = some (h.heap c).send.shut := by
      simp [Chan.close, hc_open]
    have hopen2 : MembersOpen
        (setSend { h with clients := h.clients.delete c } c (h.heap c).send.shut) := by
      intro c' hc'
      have hc'' : (h.clients.delete c).contains c' = true := hc'
      rw [contains_delete] at hc''
      simp only [Bool.and_eq_true, Bool.not_eq_true', decide_eq_false_iff_not] at hc''
      rw [heap_setSend, if_neg hc''.1]
      exact hopen c' hc''.2
    simp only [hm, if_true, hclose]
    by_cases hp : (h.heap c).playerID = ""
    · refine ⟨_, ?_, hopen2⟩
      simp [heap_setSend, Client.withSend, hp]
    · have hopen3 : MembersOpen
          { setSend { h with clients := h.clients.delete c } c (h.heap c).send.shut with
            game := Game.RemovePlayer h.game (h.heap c).playerID } := hopen2
      cases hl : leftMsg (h.heap c).playerID with
      | none =>
        refine ⟨_, ?_, hopen3⟩
        simp [heap_setSend, Client.withSend, hp, hl, setSend]
      | some msg =>
        obtain ⟨h', hf, ho⟩ := fanOut_membersOpen msg _ hopen3
        refine ⟨h', ?_, ho⟩
        simp only [heap_setSend, Client.withSend, if_true, ne_eq, hp, not_false_eq_true, hl]
        exact hf
  · refine ⟨h, ?_, hopen⟩
    simp [hm]

theorem step_unregister_of_not_member (leftMsg : String → Option Msg) (h : HubState) (c : Nat)
    (hm : h.clients.contains c = false) : step leftMsg h (.unregister c) = some h := by
  simp [step, hm]

/-- In every reachable hub state the members all have an open queue. -/
theorem reachable_membersOpen (leftMsg : String → Option Msg) (h : HubState)
    (hr : Reachable leftMsg h) : MembersOpen h := by
  induction hr with
  | init game heap hopen =>
    intro c hc
    simp [NewHub, GoMap.contains, GoMap.get?_empty] at hc
  | register h c h1 _ hc hstep ih =>
    simp only [step, Option.some.injEq] at hstep
    subst hstep
    intro c' hc'
    have hc'' : (h.clients.set c true).contains c' = true := hc'
    rw [contains_set] at hc''
    simp only [Bool.or_eq_true, decide_eq_true_eq] at hc''
    rcases hc'' with h1 | h1
    · rw [h1]; exact hc
    · exact ih c' h1
  | unregister h c h1 _ hstep ih =>
    obtain ⟨h', hs, ho⟩ := step_unregister_open leftMsg h ih c
    rw [hs] at hstep
    cases hstep
    exact ho
  | broadcast h m h1 _ hstep ih =>
    obtain ⟨h', hs, ho⟩ := fanOut_membersOpen m h ih
    have hstep2 : fanOut m h = some h1 := hstep
    rw [hs] at hstep2
    cases hstep2
    exact ho
  | addPlayer h p _ ih => exact ih
  | recordBoop h s t _ ih => exact ih
  | recv h c _ ih =>
    intro c' hc'
    rw [heap_setSend]
    by_cases hcc : c' = c
    · subst hcc
      simpa [Client.withSend, Chan.recv] using ih c' hc'
    · rw [if_neg hcc]
      exact ih c' hc'

/-- Processing a broadcast from a state whose members all have an open queue: no
panic, and the state afterwards member by member. -/
theorem broadcast_of_membersOpen (leftMsg : String → Option Msg) (h : HubState) (m : Msg)
    (hopen : MembersOpen h) :
    ∃ h', step leftMsg h (.broadcast m) = some h' ∧
      (∀ c, h.clients.contains c = true →
        (h.heap c).send.buf.length < (h.heap c).send.cap →
          (h'.heap c).send.buf = (h.heap c).send.buf ++ [m] ∧
          (h'.heap c).send.closed = false ∧ h'.clients.contains c = true) ∧
      (∀ c, h.clients.contains c = true →
        ¬ (h.heap c).send.buf.length < (h.heap c).send.cap →
          (h'.heap c).send.closed = true ∧ h'.clients.contains c = false) ∧
      (∀ c, h.clients.contains c = false →
          h'.heap c = h.heap c ∧ h'.clients.contains c = false) ∧
      h'.game = h.game := by
  obtain ⟨h', hf, hg, hout, hin, hcl⟩ := fanOut_of_open m h hopen
  refine ⟨h', hf, ?_, ?_, ?_, hg⟩
  · intro c hm hroom
    have hget := hcl c
    rw [if_neg (fun hh => hh.2 hroom)] at hget
    rw [hin c hm, if_pos hroom]
    refine ⟨rfl, hopen c hm, ?_⟩
    simpa [GoMap.contains, hget] using hm
  · intro c hm hfull
    have hget := hcl c
    rw [if_pos ⟨hm, hfull⟩] at hget
    rw [hin c hm, if_neg hfull]
    exact ⟨rfl, by simp [GoMap.contains, hget]⟩
  · intro c hm
    have hget := hcl c
    rw [if_neg (fun hh => by rw [hm] at hh; exact Bool.false_ne_true hh.1)] at hget
    refine ⟨hout c hm, ?_⟩
    simpa [GoMap.contains, hget] using hm

end Hub

/-! ## The properties of the hub -/

set_option maxRecDepth 100000 in
/-- C8 fails on this run.  The session of player `"p1"` is registered with its player in
`Players`; 513 broadcasts reach its queue of capacity 512 while nothing is read from
it, so the last one drops the session from the membership set and closes its queue;
its `unregister` event is then processed, and `"p1"` is still a key of `Players`.
With 512 broadcasts the session is still a member at `unregister`, and the player is
removed. -/
theorem player_outlives_dropped_session :
    (hubWithPlayer 512).game.Players.contains "p1" = true ∧
    ((Hub.run (fun _ => some "player_left") (hubWithPlayer 512)
        (.register 1 :: List.replicate 513 (.broadcast "m"))).map
      (fun h => (h.clients.contains 1, (h.heap 1).send.closed))) = some (false, true) ∧
    ((Hub.run (fun _ => some "player_left") (hubWithPlayer 512)
        (.register 1 :: (List.replicate 513 (.broadcast "m") ++ [.unregister 1]))).map
      (fun h => h.game.Players.contains "p1")) = some true ∧
    ((Hub.run (fun _ => some "player_left") (hubWithPlayer 512)
        (.register 1 :: (List.replicate 512 (.broadcast "m") ++ [.unregister 1]))).map
      (fun h => h.game.Players.contains "p1")) = some false := by
  refine ⟨by decide, by decide, by decide, by decide⟩

/-- C9. In every hub state reachable from `NewHub` through register, unregister and
broadcast events (a session being registered only while its queue is open), a session
whose queue is closed is not a member; processing its `unregister` event leaves the
whole state (membership, every queue, the game) unchanged; and the control loop
processes every event without a panic, that is, without closing a closed queue or
sending on a closed queue. -/
theorem closed_session_unregister (leftMsg : String → Option Msg) (h : HubState)
    (hr : Hub.Reachable leftMsg h) :
    (∀ c, (h.heap c).send.closed = true → h.clients.contains c = false) ∧
    (∀ c, (h.heap c).send.closed = true → Hub.step leftMsg h (.unregister c) = some h) ∧
    (∀ e, ∃ h', Hub.step leftMsg h e = some h') := by
  have hopen := Hub.reachable_membersOpen leftMsg h hr
  have hnot : ∀ c, (h.heap c).send.closed = true → h.clients.contains c = false := by
    intro c hc
    cases hm : h.clients.contains c with
    | false => rfl
    | true =>
      rw [hopen c hm] at hc
      cases hc
  refine ⟨hnot, fun c hc => Hub.step_unregister_of_not_member leftMsg h c (hnot c hc), ?_⟩
  intro e
  cases e with
  | register c => exact ⟨_, rfl⟩
  | unregister c =>
    obtain ⟨h', hs, -⟩ := Hub.step_unregister_open leftMsg h hopen c
    exact ⟨h', hs⟩
  | broadcast m =>
    obtain ⟨h', hs, -⟩ := Hub.fanOut_membersOpen m h hopen
    exact ⟨h', hs⟩

/-- C9 at the state in which the session 1, with a queue of capacity 1, has been
registered and then dropped by the second of two broadcasts: its queue is closed and
its `unregister` event changes nothing. -/
theorem closed_session_unregister_witness :
    ((Hub.after (fun _ => none) (NewHub NewGame (newSessions 1))
        [.register 1, .broadcast "x", .broadcast "y"]).heap 1).send.closed = true ∧
    Hub.step (fun _ => none)
      (Hub.after (fun _ => none) (NewHub NewGame (newSessions 1))
        [.register 1, .broadcast "x", .broadcast "y"]) (.unregister 1) =
      some (Hub.after (fun _ => none) (NewHub NewGame (newSessions 1))
        [.register 1, .broadcast "x", .broadcast "y"]) :=
  ⟨by decide,
   (closed_session_unregister (fun _ => none) _
      (.broadcast (Hub.after (fun _ => none) (NewHub NewGame (newSessions 1))
          [.register 1, .broadcast "x"]) "y" _
        (.broadcast (Hub.after (fun _ => none) (NewHub NewGame (newSessions 1))
            [.register 1]) "x" _
          (.register (NewHub NewGame (newSessions 1)) 1 _
            (.init NewGame (newSessions 1) (fun _ => rfl)) rfl rfl)
          rfl)
        rfl)).2.1 1 (by decide)⟩

/-- C10. Broadcast fan-out: for every hub state the control loop can be in and every
message `m`, the control loop processes a broadcast of `m` without a panic; each
member whose queue has free capacity ends with its previous queue contents, in the
same order, followed by `m`, its queue still open, and remains a member; each member
whose queue is full has its queue closed and is removed from the membership set; the
sessions that are not members and the game state (with the players of the removed
members) are unchanged. -/
theorem broadcast_fan_out (leftMsg : String → Option Msg) (h : HubState) (m : Msg)
    (hr : Hub.Reachable leftMsg h) :
    ∃ h', Hub.step leftMsg h (.broadcast m) = some h' ∧
      (∀ c, h.clients.contains c = true →
        (h.heap c).send.buf.length < (h.heap c).send.cap →
          (h'.heap c).send.buf = (h.heap c).send.buf ++ [m] ∧
          (h'.heap c).send.closed = false ∧ h'.clients.contains c = true) ∧
      (∀ c, h.clients.contains c = true →
        ¬ (h.heap c).send.buf.length < (h.heap c).send.cap →
          (h'.heap c).send.closed = true ∧ h'.clients.contains c = false) ∧
      (∀ c, h.clients.contains c = false →
          h'.heap c = h.heap c ∧ h'.clients.contains c = false) ∧
      h'.game = h.game :=
  Hub.broadcast_of_membersOpen leftMsg h m (Hub.reachable_membersOpen leftMsg h hr)

/-- C10 at the state in which session 1 (queue of capacity 1) was registered and has
one message queued, and session 2 was registered after it: the broadcast of `"m"`
reaches session 2, which stays a member, closes and drops session 1, whose queue is
full, and leaves session 3, not a member, untouched. -/
theorem broadcast_fan_out_witness :
    ∃ h', Hub.step (fun _ => none)
        (Hub.after (fun _ => none) (NewHub NewGame (newSessions 1))
          [.register 1, .broadcast "x", .register 2]) (.broadcast "m") = some h' ∧
      (h'.heap 2).send.buf = ["m"] ∧ h'.clients.contains 2 = true ∧
      (h'.heap 1).send.closed = true ∧ h'.clients.contains 1 = false ∧
      h'.heap 3 = newSessions 1 3 := by
  obtain ⟨h', hs, hroom, hfull, hnon, -⟩ :=
    broadcast_fan_out (fun _ => none)
      (Hub.after (fun _ => none) (NewHub NewGame (newSessions 1))
        [.register 1, .broadcast "x", .register 2]) "m"
      (.register (Hub.after (fun _ => none) (NewHub NewGame (newSessions 1))
          [.register 1, .broadcast "x"]) 2 _
        (.broadcast (Hub.after (fun _ => none) (NewHub NewGame (newSessions 1))
            [.register 1]) "x" _
          (.register (NewHub NewGame (newSessions 1)) 1 _
            (.init NewGame (newSessions 1) (fun _ => rfl)) rfl rfl)
          rfl)
        rfl rfl)
  have h2 := hroom 2 (by decide) (by decide)
  have h1 := hfull 1 (by decide) (by decide)
  have h3 := hnon 3 (by decide)
  exact ⟨h', hs, h2.1, h2.2.2, h1.1, h1.2, h3.1⟩
